import Mathlib

/-!
Verification of the or-models CLI (a Deno/TypeScript program) against its
natural-language specification.

This file gives a shallow embedding of the program's data model and of the
operations the specification talks about:

* src/or-models.ts : price parsing (JS parseFloat), effective price with the
  "openrouter/auto" sentinel, human-readable age rendering, the
  fetch/cache/fallback orchestration, record filtering, stable sorting and
  table rendering;
* src/schemas.ts : the standalone Zod schema module.

JavaScript numbers are modelled exactly: a finite JS number is an exact
fraction (integer numerator over positive denominator, not necessarily
reduced), plus explicit NaN and signed-infinity values.  The program only
manipulates magnitudes far below the range where IEEE-754 rounding could
change a comparison or a zero test, so exact arithmetic is faithful for
every comparison the source performs.  Effects (filesystem, network,
process exit) are modelled by an explicit environment record holding the
outcome of each effectful call, and the orchestration is a pure function of
that environment.
-/

/-- Exact fraction: an unreduced rational with a positive denominator.  Used
as the value of a finite JS number; all comparisons cross-multiply, so the
representation being unreduced never matters. -/
structure Frac where
  n : ℤ
  d : ℕ
  pos : 0 < d

/-- Strict less-than of fraction values (cross multiplication; denominators
are positive). -/
def Frac.ltB (a b : Frac) : Bool := a.n * (b.d : ℤ) < b.n * (a.d : ℤ)

/-- Less-or-equal of fraction values. -/
def Frac.leB (a b : Frac) : Bool := a.n * (b.d : ℤ) ≤ b.n * (a.d : ℤ)

/-- Value equality of fractions (this, not structural equality, is JS
numeric equality). -/
def Frac.eqv (a b : Frac) : Bool := a.n * (b.d : ℤ) = b.n * (a.d : ℤ)

/-- Embed an integer. -/
def Frac.ofInt (n : ℤ) : Frac := ⟨n, 1, Nat.one_pos⟩

/-- Divide by a positive natural number. -/
def Frac.divPos (a : Frac) (k : ℕ) (hk : 0 < k) : Frac :=
  ⟨a.n, a.d * k, Nat.mul_pos a.pos hk⟩

/-- Math.floor of a fraction value (floored integer division). -/
def Frac.floor (a : Frac) : ℤ := Int.fdiv a.n (a.d : ℤ)

/-- Rational value of a fraction (used only to relate the embedding to
ordinary rational arithmetic in bridge lemmas). -/
def Frac.toRat (a : Frac) : ℚ := (a.n : ℚ) / (a.d : ℚ)

/-- Result of a JavaScript numeric computation: NaN, signed infinity, or an
exact finite value. -/
inductive JsNum where
  | nan : JsNum
  | posInf : JsNum
  | negInf : JsNum
  | num : Frac → JsNum

/-- JavaScript strict less-than on numbers: any comparison involving NaN is
false; infinities compare as expected; finite values compare exactly. -/
def JsNum.lt : JsNum → JsNum → Bool
  | .nan, _ => false
  | _, .nan => false
  | .negInf, .negInf => false
  | .negInf, .posInf => true
  | .negInf, .num _ => true
  | .posInf, _ => false
  | .num _, .posInf => true
  | .num _, .negInf => false
  | .num a, .num b => a.ltB b

/-- JavaScript strict equality on numbers: NaN equals nothing, infinities
equal themselves, finite values compare by value. -/
def JsNum.strictEq : JsNum → JsNum → Bool
  | .posInf, .posInf => true
  | .negInf, .negInf => true
  | .num a, .num b => a.eqv b
  | _, _ => false

/-- True exactly on the NaN value. -/
def JsNum.isNaN : JsNum → Bool
  | .nan => true
  | _ => false

/-- JavaScript loose-or-strict greater-or-equal on numbers: false whenever
NaN is involved, otherwise the negation of strict less-than. -/
def JsNum.geB (a b : JsNum) : Bool := !a.isNaN && !b.isNaN && !(JsNum.lt a b)

/-- JavaScript less-or-equal on numbers. -/
def JsNum.leB (a b : JsNum) : Bool := !a.isNaN && !b.isNaN && !(JsNum.lt b a)

/-- The finite JS number zero. -/
def JsNum.zero : JsNum := .num (Frac.ofInt 0)

/-- Numeric value of a list of decimal digit characters. -/
def digitsVal (cs : List Char) : ℕ :=
  cs.foldl (fun n c => 10 * n + (c.toNat - 48)) 0

/-- Split a character list into its leading run of decimal digits and the
rest. -/
def spanDigits (cs : List Char) : List Char × List Char :=
  (cs.takeWhile Char.isDigit, cs.dropWhile Char.isDigit)

/-- Optional exponent part of a JS decimal literal: sign and digits.  When no
digit follows, the exponent part is not consumed and contributes 0. -/
def parseExpPart (cs : List Char) : ℤ :=
  let p : ℤ × List Char :=
    match cs with
    | '-' :: rest => (-1, rest)
    | '+' :: rest => (1, rest)
    | _ => (1, cs)
  let ds := (spanDigits p.2).1
  if ds.isEmpty then 0 else p.1 * (digitsVal ds : ℤ)

/-- Mantissa digits and a decimal exponent assembled into an exact fraction:
(intPart.fracPart) * 10 ^ expv, with the given sign. -/
def assembleDecimal (neg : Bool) (ip fp : List Char) (expv : ℤ) : Frac :=
  let mantNum : ℤ := (digitsVal ip : ℤ) * (10 : ℤ) ^ fp.length + (digitsVal fp : ℤ)
  let mantNum := if neg then -mantNum else mantNum
  let mantDen : ℕ := 10 ^ fp.length
  let hden : 0 < mantDen := Nat.pos_pow_of_pos fp.length (by decide)
  match expv with
  | .ofNat e => ⟨mantNum * (10 : ℤ) ^ e, mantDen, hden⟩
  | .negSucc e =>
      ⟨mantNum, mantDen * 10 ^ (e + 1),
        Nat.mul_pos hden (Nat.pos_pow_of_pos (e + 1) (by decide))⟩

/-- JavaScript parseFloat: skip leading whitespace, then read the longest
prefix that is a signed decimal literal ("Infinity", digits with optional
fraction, or a bare fraction, each with an optional exponent); return NaN if
no such prefix exists. -/
def parseFloat (s : String) : JsNum :=
  let cs := s.data.dropWhile Char.isWhitespace
  let sgn : Bool × List Char :=
    match cs with
    | '-' :: rest => (true, rest)
    | '+' :: rest => (false, rest)
    | _ => (false, cs)
  if "Infinity".data.isPrefixOf sgn.2 then
    if sgn.1 then .negInf else .posInf
  else
    let ip := spanDigits sgn.2
    let fp : List Char × List Char :=
      match ip.2 with
      | '.' :: rest => spanDigits rest
      | _ => ([], ip.2)
    if ip.1.isEmpty && fp.1.isEmpty then .nan
    else
      let expv : ℤ :=
        match fp.2 with
        | 'e' :: rest => parseExpPart rest
        | 'E' :: rest => parseExpPart rest
        | _ => 0
      .num (assembleDecimal sgn.1 ip.1 fp.1 expv)

/-- Largest integer exactly representable in a JS number
(Number.MAX_SAFE_INTEGER). -/
def maxSafeInteger : Frac := Frac.ofInt 9007199254740991

/-- Effective price of a model (src/or-models.ts getEffectivePrice): the
sentinel auto-routing model is given an extreme price, every other model's
price string is parsed with parseFloat. -/
def getEffectivePrice (priceStr : String) (modelId : String) : JsNum :=
  if modelId = "openrouter/auto" then .num maxSafeInteger
  else parseFloat priceStr

/-- Seconds elapsed between a created timestamp (Unix seconds) and a time in
Unix milliseconds, as computed by getHumanReadableAge. -/
def deltaSecondsOf (createdTimestamp nowMs : ℤ) : Frac :=
  ⟨nowMs - createdTimestamp * 1000, 1000, by decide⟩

/-- Days elapsed, as computed by getHumanReadableAge. -/
def deltaDaysOf (createdTimestamp nowMs : ℤ) : Frac :=
  (deltaSecondsOf createdTimestamp nowMs).divPos (60 * 60 * 24) (by decide)

/-- Human-readable age of a record (src/or-models.ts getHumanReadableAge).
The JS code reads the current time from Date.now(); here it is the explicit
nowMs parameter.  A zero created timestamp is falsy in JS and renders as
"Unknown". -/
def getHumanReadableAge (createdTimestamp : ℤ) (nowMs : ℤ) : String :=
  if createdTimestamp = 0 then "Unknown"
  else
    let deltaSeconds := deltaSecondsOf createdTimestamp nowMs
    let deltaDays := deltaSeconds.divPos (60 * 60 * 24) (by decide)
    if (Frac.ofInt 365).ltB deltaDays then
      let years := (deltaDays.divPos 365 (by decide)).floor
      "~" ++ toString years ++ " yr" ++ (if years > 1 then "s" else "")
    else if (Frac.ofInt 30).ltB deltaDays then
      let months := (deltaDays.divPos 30 (by decide)).floor
      "~" ++ toString months ++ " mn" ++ (if months > 1 then "s" else "")
    else if (Frac.ofInt 1).leB deltaDays then
      toString deltaDays.floor ++ " day" ++ (if deltaDays.floor > 1 then "s" else "")
    else
      let deltaHours := deltaSeconds.divPos (60 * 60) (by decide)
      if (Frac.ofInt 1).leB deltaHours then
        toString deltaHours.floor ++ " hr" ++ (if deltaHours.floor > 1 then "s" else "")
      else
        let deltaMinutes := deltaSeconds.divPos 60 (by decide)
        toString deltaMinutes.floor ++ " min" ++ (if deltaMinutes.floor > 1 then "s" else "")

example : (parseFloat "0").strictEq JsNum.zero = true := by rfl
example : (parseFloat "0.000001").strictEq JsNum.zero = false := by rfl
example : (parseFloat "abc").isNaN = true := by rfl
example : (parseFloat "2.5e-3").strictEq (.num ⟨1, 400, by decide⟩) = true := by rfl
example : getHumanReadableAge 0 12345 = "Unknown" := by rfl
example : getHumanReadableAge 1 (1000 + 365 * 86400000) = "~12 mns" := by rfl
example : getHumanReadableAge 1 (1000 + 2583360 * 1000) = "29 days" := by rfl

/-- Decoded JSON value (the result of JSON.parse).  Object fields are kept
in order; lookup takes the first binding, and all inputs the program builds
or that appear in this development have distinct keys.  Numbers are exact
decimal fractions. -/
inductive Json where
  | null : Json
  | bool : Bool → Json
  | num : Frac → Json
  | str : String → Json
  | arr : List Json → Json
  | obj : List (String × Json) → Json

/-- Field lookup in a decoded JSON object. -/
def jGet (fs : List (String × Json)) (k : String) : Option Json :=
  fs.lookup k

/-- Required string field (z.string()). -/
def reqStr (fs : List (String × Json)) (k : String) : Option String :=
  match jGet fs k with
  | some (.str s) => some s
  | _ => none

/-- Optional string field (z.string().optional()): absent is accepted,
present must be a string (null is rejected). -/
def optStr (fs : List (String × Json)) (k : String) : Option (Option String) :=
  match jGet fs k with
  | none => some none
  | some (.str s) => some (some s)
  | _ => none

/-- Nullable string field (z.string().nullable()): must be present, as a
string or null. -/
def nullableStr (fs : List (String × Json)) (k : String) : Option (Option String) :=
  match jGet fs k with
  | some .null => some none
  | some (.str s) => some (some s)
  | _ => none

/-- Required integer field (z.number().int()). -/
def reqInt (fs : List (String × Json)) (k : String) : Option ℤ :=
  match jGet fs k with
  | some (.num f) => if f.n % (f.d : ℤ) = 0 then some (Int.fdiv f.n (f.d : ℤ)) else none
  | _ => none

/-- Nullable integer field (z.number().int().nullable()). -/
def nullableInt (fs : List (String × Json)) (k : String) : Option (Option ℤ) :=
  match jGet fs k with
  | some .null => some none
  | some (.num f) => if f.n % (f.d : ℤ) = 0 then some (some (Int.fdiv f.n (f.d : ℤ))) else none
  | _ => none

/-- Required boolean field (z.boolean()). -/
def reqBool (fs : List (String × Json)) (k : String) : Option Bool :=
  match jGet fs k with
  | some (.bool b) => some b
  | _ => none

/-- Required array-of-strings field (z.array(z.string())). -/
def reqStrList (fs : List (String × Json)) (k : String) : Option (List String) :=
  match jGet fs k with
  | some (.arr xs) => xs.mapM (fun j => match j with | .str s => some s | _ => none)
  | _ => none

/-- Nullable record field (z.record(z.string(), z.unknown()).nullable()):
null, or any JSON object. -/
def nullableRecord (fs : List (String × Json)) (k : String) :
    Option (Option (List (String × Json))) :=
  match jGet fs k with
  | some .null => some none
  | some (.obj gs) => some (some gs)
  | _ => none

/-- Architecture sub-record of a model (shape shared by both schema files). -/
structure Architecture where
  modality : String
  input_modalities : List String
  output_modalities : List String
  tokenizer : String
  instruct_type : Option String

/-- Pricing sub-record as accepted by src/or-models.ts (request and image
are optional there). -/
structure Pricing where
  prompt : String
  completion : String
  request : Option String
  image : Option String
  web_search : Option String
  internal_reasoning : Option String
  input_cache_read : Option String
  input_cache_write : Option String

/-- Top-provider sub-record of a model. -/
structure TopProvider where
  context_length : Option ℤ
  max_completion_tokens : Option ℤ
  is_moderated : Bool

/-- Validated model record (z.infer of ModelSchema in src/or-models.ts). -/
structure Model where
  id : String
  name : String
  description : String
  context_length : ℤ
  created : ℤ
  hugging_face_id : Option String
  canonical_slug : String
  architecture : Architecture
  pricing : Pricing
  top_provider : TopProvider
  per_request_limits : Option (List (String × Json))
  supported_parameters : List String

/-- ArchitectureSchema of src/or-models.ts, as its parse function. -/
def ArchitectureSchema (j : Json) : Option Architecture :=
  match j with
  | .obj fs => do
      let modality ← reqStr fs "modality"
      let im ← reqStrList fs "input_modalities"
      let om ← reqStrList fs "output_modalities"
      let tokenizer ← reqStr fs "tokenizer"
      let it ← nullableStr fs "instruct_type"
      some ⟨modality, im, om, tokenizer, it⟩
  | _ => none

/-- PricingSchema of src/or-models.ts, as its parse function: prompt and
completion are required strings, the six remaining price fields are
optional strings. -/
def PricingSchema (j : Json) : Option Pricing :=
  match j with
  | .obj fs => do
      let prompt ← reqStr fs "prompt"
      let completion ← reqStr fs "completion"
      let req ← optStr fs "request"
      let image ← optStr fs "image"
      let ws ← optStr fs "web_search"
      let ir ← optStr fs "internal_reasoning"
      let icr ← optStr fs "input_cache_read"
      let icw ← optStr fs "input_cache_write"
      some ⟨prompt, completion, req, image, ws, ir, icr, icw⟩
  | _ => none

/-- TopProviderSchema of src/or-models.ts, as its parse function. -/
def TopProviderSchema (j : Json) : Option TopProvider :=
  match j with
  | .obj fs => do
      let cl ← nullableInt fs "context_length"
      let mct ← nullableInt fs "max_completion_tokens"
      let im ← reqBool fs "is_moderated"
      some ⟨cl, mct, im⟩
  | _ => none

/-- ModelSchema of src/or-models.ts, as its parse function. -/
def ModelSchema (j : Json) : Option Model :=
  match j with
  | .obj fs => do
      let id ← reqStr fs "id"
      let name ← reqStr fs "name"
      let description ← reqStr fs "description"
      let cl ← reqInt fs "context_length"
      let created ← reqInt fs "created"
      let hf ← nullableStr fs "hugging_face_id"
      let cs ← reqStr fs "canonical_slug"
      let arch ← (jGet fs "architecture").bind ArchitectureSchema
      let pricing ← (jGet fs "pricing").bind PricingSchema
      let tp ← (jGet fs "top_provider").bind TopProviderSchema
      let prl ← nullableRecord fs "per_request_limits"
      let sp ← reqStrList fs "supported_parameters"
      some ⟨id, name, description, cl, created, hf, cs, arch, pricing, tp, prl, sp⟩
  | _ => none

/-- OpenRouterModelsSchema of src/or-models.ts, as its parse function
composed with the .data projection the call sites apply
(OpenRouterModelsSchema.parse(json).data). -/
def OpenRouterModelsSchema (j : Json) : Option (List Model) :=
  match j with
  | .obj fs =>
      match jGet fs "data" with
      | some (.arr xs) => xs.mapM ModelSchema
      | _ => none
  | _ => none

namespace Schemas

/-- ArchitectureSchema of src/schemas.ts (identical shape to the inline
one), as a validity test. -/
def architectureValid (j : Json) : Bool :=
  match j with
  | .obj fs =>
      (reqStr fs "modality").isSome &&
      (reqStrList fs "input_modalities").isSome &&
      (reqStrList fs "output_modalities").isSome &&
      (reqStr fs "tokenizer").isSome &&
      (nullableStr fs "instruct_type").isSome
  | _ => false

/-- PricingSchema of src/schemas.ts, as a validity test: here request and
image are REQUIRED strings (the inline schema of src/or-models.ts makes
them optional). -/
def pricingValid (j : Json) : Bool :=
  match j with
  | .obj fs =>
      (reqStr fs "prompt").isSome &&
      (reqStr fs "completion").isSome &&
      (reqStr fs "request").isSome &&
      (reqStr fs "image").isSome &&
      (optStr fs "web_search").isSome &&
      (optStr fs "internal_reasoning").isSome &&
      (optStr fs "input_cache_read").isSome &&
      (optStr fs "input_cache_write").isSome
  | _ => false

/-- TopProviderSchema of src/schemas.ts, as a validity test. -/
def topProviderValid (j : Json) : Bool :=
  match j with
  | .obj fs =>
      (nullableInt fs "context_length").isSome &&
      (nullableInt fs "max_completion_tokens").isSome &&
      (reqBool fs "is_moderated").isSome
  | _ => false

/-- ModelSchema of src/schemas.ts, as a validity test (per_request_limits
uses z.record(z.unknown()).nullable(), which accepts the same values as the
inline z.record(z.string(), z.unknown()).nullable()). -/
def modelValid (j : Json) : Bool :=
  match j with
  | .obj fs =>
      (reqStr fs "id").isSome &&
      (reqStr fs "name").isSome &&
      (reqStr fs "description").isSome &&
      (reqInt fs "context_length").isSome &&
      (reqInt fs "created").isSome &&
      (nullableStr fs "hugging_face_id").isSome &&
      (reqStr fs "canonical_slug").isSome &&
      (match jGet fs "architecture" with
        | some a => architectureValid a
        | none => false) &&
      (match jGet fs "pricing" with
        | some p => pricingValid p
        | none => false) &&
      (match jGet fs "top_provider" with
        | some t => topProviderValid t
        | none => false) &&
      (nullableRecord fs "per_request_limits").isSome &&
      (reqStrList fs "supported_parameters").isSome
  | _ => false

/-- OpenRouterModelsSchema of src/schemas.ts, as a validity test. -/
def openRouterModelsValid (j : Json) : Bool :=
  match j with
  | .obj fs =>
      match jGet fs "data" with
      | some (.arr xs) => xs.all modelValid
      | _ => false
  | _ => false

end Schemas

/-- Filesystem error discriminator: Deno.errors.NotFound versus anything
else (the fresh-path catch logs only non-NotFound errors; the control flow
is the same either way). -/
inductive FsError where
  | notFound : FsError
  | other : FsError

/-- Outcome environment for one fetchModels invocation: the result of each
effectful call the function can make, in program order.  A read field pairs
the readTextFile outcome with the JSON.parse outcome (none when JSON.parse
throws); the fetch field carries the HTTP status and the response.json()
outcome. -/
structure FetchEnv where
  nowMs : ℤ
  statResult : Except FsError ℤ
  cacheRead1 : Except FsError (Option Json)
  fetchResult : Except Unit (ℤ × Option Json)
  writeResult : Except FsError Unit
  cacheRead2 : Except FsError (Option Json)

/-- Result of fetchModels: a returned batch, or process termination with an
exit code (Deno.exit). -/
inductive FetchResult where
  | ret : List Model → FetchResult
  | exit : ℤ → FetchResult

/-- Result of fetchModels together with whether the network request was
issued. -/
structure FetchOutcome where
  result : FetchResult
  networkCalled : Bool

/-- Cache-fresh path of fetchModels (the leading try block): when stat
succeeds, the cache is younger than 24 hours and a forced refresh was not
requested, read, JSON.parse and validate the cache; any failure in the block
is caught and yields none (fall through to the network path). -/
def cacheFresh (forceRefresh : Bool) (env : FetchEnv) : Option (List Model) :=
  match env.statResult with
  | .error _ => none
  | .ok mtime =>
      let ageHours : Frac := ⟨env.nowMs - mtime, 1000 * 60 * 60, by decide⟩
      if !forceRefresh && ageHours.ltB (Frac.ofInt 24) then
        match env.cacheRead1 with
        | .ok (some j) => OpenRouterModelsSchema j
        | _ => none
      else none

/-- Stale-fallback path of fetchModels (the inner try of the catch block):
read and validate whatever cache exists; on any failure, Deno.exit(1). -/
def staleFallback (env : FetchEnv) : FetchResult :=
  match env.cacheRead2 with
  | .ok (some j) =>
      match OpenRouterModelsSchema j with
      | some batch => .ret batch
      | none => .exit 1
  | _ => .exit 1

/-- Network path of fetchModels: fetch, check response.ok (status 200-299),
decode the body, validate, write the cache, return the batch.  Every throw
inside this try block - including a cache-write failure - lands in the same
catch and continues with the stale fallback. -/
def networkPath (env : FetchEnv) : FetchResult :=
  match env.fetchResult with
  | .error _ => staleFallback env
  | .ok (status, body) =>
      if 200 ≤ status ∧ status ≤ 299 then
        match body with
        | none => staleFallback env
        | some j =>
            match OpenRouterModelsSchema j with
            | none => staleFallback env
            | some batch =>
                match env.writeResult with
                | .ok _ => .ret batch
                | .error _ => staleFallback env
      else staleFallback env

/-- Embedding of fetchModels (src/or-models.ts): cache-fresh path first,
otherwise the network path (recording that the network request was made). -/
def fetchModels (forceRefresh : Bool) (env : FetchEnv) : FetchOutcome :=
  match cacheFresh forceRefresh env with
  | some batch => ⟨.ret batch, false⟩
  | none => ⟨networkPath env, true⟩

/-- Parsed command-line options relevant to the embedded pipeline
(parseArgs output; numeric options arrive as JS numbers, modelled as exact
fractions). -/
structure Args where
  searchTerm : Option String
  free : Bool
  minPromptPrice : Option Frac
  maxPromptPrice : Option Frac
  minContext : Option Frac
  maxContext : Option Frac
  supportsReasoning : Bool
  supportsTools : Bool
  supportsStructuredOutput : Bool
  supportsResponseFormat : Bool
  forceRefresh : Bool
  help : Bool
  version : Bool

/-- ASCII lower-casing of a string (String.prototype.toLowerCase on the
ASCII data this program compares). -/
def jsToLower (s : String) : String := String.mk (s.data.map Char.toLower)

/-- Substring search over character lists (String.prototype.includes). -/
def subSearch (needle : List Char) : List Char → Bool
  | [] => needle.isEmpty
  | c :: rest => needle.isPrefixOf (c :: rest) || subSearch needle rest

/-- JS hay.includes(sub). -/
def strIncludes (hay sub : String) : Bool := subSearch sub.data hay.data

/-- Capability-token test used by the supports-* filters (checkParam in
src/or-models.ts): some supported parameter is in the given token list. -/
def checkParam (p : List String) (m : Model) : Bool :=
  m.supported_parameters.any (fun sp => p.contains sp)

/-- Embedding of filterModels (src/or-models.ts): conjunction of the active
filters, applied in program order.  An empty positional search term is falsy
in JS, so it activates no filter. -/
def filterModels (models : List Model) (args : Args) : List Model :=
  let searchTerm := args.searchTerm.map jsToLower
  let f0 := models
  let f1 :=
    match searchTerm with
    | some term =>
        if term ≠ "" then
          f0.filter (fun m =>
            strIncludes (jsToLower m.id) term ||
            strIncludes (jsToLower m.name) term ||
            strIncludes (jsToLower m.description) term)
        else f0
    | none => f0
  let f2 :=
    if args.free then
      f1.filter (fun m => (getEffectivePrice m.pricing.prompt m.id).strictEq JsNum.zero)
    else f1
  let f3 :=
    match args.minPromptPrice with
    | some q => f2.filter (fun m => (getEffectivePrice m.pricing.prompt m.id).geB (.num q))
    | none => f2
  let f4 :=
    match args.maxPromptPrice with
    | some q => f3.filter (fun m => (getEffectivePrice m.pricing.prompt m.id).leB (.num q))
    | none => f3
  let f5 :=
    match args.minContext with
    | some q => f4.filter (fun m => (JsNum.num (Frac.ofInt m.context_length)).geB (.num q))
    | none => f4
  let f6 :=
    match args.maxContext with
    | some q => f5.filter (fun m => (JsNum.num (Frac.ofInt m.context_length)).leB (.num q))
    | none => f5
  let f7 := if args.supportsReasoning then f6.filter (checkParam ["reasoning", "include_reasoning"]) else f6
  let f8 := if args.supportsTools then f7.filter (checkParam ["tools", "tool_choice"]) else f7
  let f9 := if args.supportsStructuredOutput then f8.filter (checkParam ["structured_outputs"]) else f8
  if args.supportsResponseFormat then f9.filter (checkParam ["response_format"]) else f9

/-- Exit code of one program run (main in src/or-models.ts) together with
whether fetchModels was invoked: help and version print and return before
fetching; otherwise the run exits 0 after rendering unless fetchModels
terminated the process (the filter/sort/render stages cannot exit). -/
def mainRun (args : Args) (env : FetchEnv) : ℤ × Bool :=
  if args.help then (0, false)
  else if args.version then (0, false)
  else
    match (fetchModels args.forceRefresh env).result with
    | .exit c => (c, true)
    | .ret _ => (0, true)

/-- Sort key as extracted by the keyMap of sortModels: a JS number or a JS
string, depending only on the chosen sort-by field. -/
inductive SKey where
  | n : JsNum → SKey
  | s : String → SKey

/-- JS less-than on code-unit sequences (String.prototype comparison). -/
def charListLt : List Char → List Char → Bool
  | [], [] => false
  | [], _ :: _ => true
  | _ :: _, [] => false
  | a :: as, b :: bs => if a < b then true else if b < a then false else charListLt as bs

/-- JS less-than on strings. -/
def strLt (a b : String) : Bool := charListLt a.data b.data

/-- JS less-than on sort keys.  For a fixed recognized sort-by field the
keyMap extracts keys of a single variant, so the mixed cases are
unreachable in sortModels. -/
def SKey.jsLt : SKey → SKey → Bool
  | .n a, .n b => JsNum.lt a b
  | .s a, .s b => strLt a b
  | _, _ => false

/-- The keyMap of sortModels (src/or-models.ts): key extractor for each
recognized sort-by value. -/
def sortKeyOf (sortBy : String) : Option (Model → SKey) :=
  if sortBy = "prompt_price" then
    some (fun m => .n (getEffectivePrice m.pricing.prompt m.id))
  else if sortBy = "completion_price" then
    some (fun m => .n (getEffectivePrice m.pricing.completion m.id))
  else if sortBy = "context" then
    some (fun m => .n (.num (Frac.ofInt m.context_length)))
  else if sortBy = "created" then
    some (fun m => .n (.num (Frac.ofInt m.created)))
  else if sortBy = "name" then
    some (fun m => .s (jsToLower m.name))
  else none

/-- The comparator passed to Array.prototype.sort by sortModels: -1/1 when
the extracted keys compare strictly, flipped by the descending flag, 0
otherwise. -/
def modelCmp (keyf : Model → SKey) (desc : Bool) (a b : Model) : ℤ :=
  let valA := keyf a
  let valB := keyf b
  if valA.jsLt valB then (if desc then 1 else -1)
  else if valB.jsLt valA then (if desc then -1 else 1)
  else 0

/-- Non-positive comparator outcome, as a relation: a sorts no later than
b. -/
def modelLe (keyf : Model → SKey) (desc : Bool) (a b : Model) : Prop :=
  modelCmp keyf desc a b ≤ 0

instance modelLeDec (keyf : Model → SKey) (desc : Bool) :
    DecidableRel (modelLe keyf desc) :=
  fun a b => inferInstanceAs (Decidable (modelCmp keyf desc a b ≤ 0))

/-- Embedding of sortModels (src/or-models.ts).  ECMAScript specifies
Array.prototype.sort with a consistent comparator purely by its result:
the stable permutation of the input that is sorted with respect to the
comparator.  Insertion sort realizes exactly that (stability and
sortedness are proved below), so it is a faithful denotation of the call
site.  An unrecognized sort key returns the input unchanged. -/
def sortModels (models : List Model) (sortBy : String) (desc : Bool) : List Model :=
  match sortKeyOf sortBy with
  | none => models
  | some keyf => models.insertionSort (modelLe keyf desc)

/-- Inverted price 1 / price / 1_000_000 as computed by formatPrice with
the invert flag.  The zero case is guarded by the caller (price === 0 is
rendered beforehand); negative zero does not arise since validated price
strings are non-negative decimals. -/
def JsNum.invDiv1e6 : JsNum → JsNum
  | .nan => .nan
  | .posInf => JsNum.zero
  | .negInf => JsNum.zero
  | .num f =>
      if hp : 0 < f.n then .num ⟨(f.d : ℤ), f.n.toNat * 1000000, by omega⟩
      else if hn : f.n < 0 then .num ⟨-(f.d : ℤ), (-f.n).toNat * 1000000, by omega⟩
      else .posInf

/-- Price scaled to dollars per million tokens (price * 1_000_000). -/
def JsNum.mul1e6 : JsNum → JsNum
  | .nan => .nan
  | .posInf => .posInf
  | .negInf => .negInf
  | .num f => .num ⟨f.n * 1000000, f.d, f.pos⟩

/-- Rounding to the nearest integer, ties away from zero (the default
Intl.NumberFormat rounding used by toLocaleString). -/
def roundHalfAway (f : Frac) : ℤ :=
  if 0 ≤ f.n then Int.fdiv (2 * f.n + (f.d : ℤ)) (2 * (f.d : ℤ))
  else -(Int.fdiv (2 * (-f.n) + (f.d : ℤ)) (2 * (f.d : ℤ)))

/-- Thousands grouping of a reversed digit list (comma every three
digits). -/
def groupRev : List Char → List Char
  | a :: b :: c :: d :: rest => a :: b :: c :: ',' :: groupRev (d :: rest)
  | l => l

/-- Decimal rendering of a natural number with en-US thousands grouping. -/
def jsGroupNat (m : ℕ) : String :=
  String.mk ((groupRev (toString m).data.reverse).reverse)

/-- Number.prototype.toLocaleString with maximumFractionDigits 0, for the
en-US default locale (the rendering locale is host-defined; grouping is
modelled as en-US). -/
def jsLocale0 : JsNum → String
  | .nan => "NaN"
  | .posInf => "∞"
  | .negInf => "-∞"
  | .num f =>
      let r := roundHalfAway f
      (if r < 0 then "-" else "") ++ jsGroupNat r.natAbs

/-- Two-digit rendering of a value below 100. -/
def twoDigits (k : ℕ) : String := (if k < 10 then "0" else "") ++ toString k

/-- Number.prototype.toFixed(2).  For a finite value, the nearest multiple
of 1/100, ties toward positive infinity, rendered with two decimals (exact
rational rounding; the source rounds the IEEE-754 double, which agrees on
every comparison-relevant magnitude this program prints). -/
def jsToFixed2 : JsNum → String
  | .nan => "NaN"
  | .posInf => "Infinity"
  | .negInf => "-Infinity"
  | .num f =>
      let n := Int.fdiv (2 * (f.n * 100) + (f.d : ℤ)) (2 * (f.d : ℤ))
      (if n < 0 then "-" else "") ++
        toString (n.natAbs / 100) ++ "." ++ twoDigits (n.natAbs % 100)

/-- Embedding of formatPrice (src/or-models.ts): the sentinel auto-routing
id renders as "n/a" before any numeric handling; zero renders as "∞" or
"0.00" depending on inversion; otherwise tokens-per-dollar (grouped, with
an " M" suffix) or dollars-per-million (two decimals). -/
def formatPrice (priceStr : String) (invert : Bool) (modelId : Option String) : String :=
  if modelId = some "openrouter/auto" then "n/a"
  else
    let price := parseFloat priceStr
    if price.strictEq JsNum.zero then (if invert then "∞" else "0.00")
    else if invert then jsLocale0 price.invDiv1e6 ++ " M"
    else jsToFixed2 price.mul1e6

/-- ANSI dim styling (the dim function of the fmt/colors collaborator). -/
def dimS (s : String) : String := "\x1b[2m" ++ s ++ "\x1b[22m"

/-- ANSI green styling. -/
def greenS (s : String) : String := "\x1b[32m" ++ s ++ "\x1b[39m"

/-- String.prototype.padStart with spaces. -/
def padStart (s : String) (n : ℕ) : String :=
  String.mk (List.replicate (n - s.data.length) ' ') ++ s

/-- String.prototype.padEnd with spaces. -/
def padEnd (s : String) (n : ℕ) : String :=
  s ++ String.mk (List.replicate (n - s.data.length) ' ')

/-- One data row of the table view (outputAsTable in src/or-models.ts):
the nine cells of console.log's row.join input, in order - id, prompt
price, completion price, context, age, and the four capability marks. -/
def outputAsTableRow (nowMs : ℤ) (longIds invert : Bool) (m : Model) : List String :=
  let params := m.supported_parameters
  [ dimS (padEnd (String.mk (m.id.data.take (if longIds then 80 else 45))) 45),
    padStart (formatPrice m.pricing.prompt invert (some m.id)) 6,
    padStart (formatPrice m.pricing.completion invert (some m.id)) 6,
    padStart (jsLocale0 (.num (Frac.ofInt m.context_length))) 10,
    padStart (getHumanReadableAge m.created nowMs) 7,
    if params.contains "reasoning" || params.contains "include_reasoning"
      then greenS "✅" else "  ",
    if params.contains "tools" || params.contains "tool_choice"
      then greenS "✅" else "  ",
    if params.contains "response_format" then greenS "✅" else "  ",
    if params.contains "structured_outputs" then greenS "✅" else "  " ]

/-- Baseline pricing record for concrete scenarios. -/
def basePricing : Pricing := ⟨"0", "0", none, none, none, none, none, none⟩

/-- Baseline architecture record for concrete scenarios. -/
def baseArch : Architecture := ⟨"text", [], [], "t", none⟩

/-- Baseline top-provider record for concrete scenarios. -/
def baseTop : TopProvider := ⟨none, none, false⟩

/-- Baseline model record for concrete scenarios. -/
def baseModel : Model :=
  ⟨"m", "M", "d", 8, 1, none, "m", baseArch, basePricing, baseTop, none, []⟩

/-- Record with prompt price "0". -/
def mFree : Model := { baseModel with id := "a", name := "A" }

/-- Record with prompt price "0.000001". -/
def mMicro : Model :=
  { baseModel with
    id := "b"
    name := "B"
    pricing := { basePricing with prompt := "0.000001" } }

/-- Record with prompt price "0.00001". -/
def mSmall : Model :=
  { baseModel with
    id := "c"
    name := "C"
    pricing := { basePricing with prompt := "0.00001" } }

/-- The sentinel auto-routing record, with nonzero pricing strings. -/
def mAuto : Model :=
  { baseModel with
    id := "openrouter/auto"
    name := "Auto Router"
    pricing := { basePricing with prompt := "-1", completion := "-1" } }

/-- Record named "Beta" for the name-sort scenario. -/
def mBeta : Model := { baseModel with id := "beta", name := "Beta" }

/-- Record named "alpha" for the name-sort scenario. -/
def mAlpha : Model := { baseModel with id := "alpha", name := "alpha" }

/-- Record named "Gamma" for the name-sort scenario. -/
def mGamma : Model := { baseModel with id := "gamma", name := "Gamma" }

/-- Argument record with every filter inactive and every flag off. -/
def noFilterArgs : Args :=
  ⟨none, false, none, none, none, none, false, false, false, false, false, false, false⟩

/-- Argument record with only the free filter active. -/
def freeArgs : Args := { noFilterArgs with free := true }

/-- JSON value of a minimal valid model as accepted by the inline schema of
src/or-models.ts; its pricing object has no request and no image field, so
src/schemas.ts rejects it. -/
def modelJson0 : Json :=
  .obj [("id", .str "m"), ("name", .str "M"), ("description", .str "d"),
        ("context_length", .num (Frac.ofInt 8)), ("created", .num (Frac.ofInt 1)),
        ("hugging_face_id", .null), ("canonical_slug", .str "m"),
        ("architecture",
          .obj [("modality", .str "text"), ("input_modalities", .arr []),
                ("output_modalities", .arr []), ("tokenizer", .str "t"),
                ("instruct_type", .null)]),
        ("pricing", .obj [("prompt", .str "0"), ("completion", .str "0")]),
        ("top_provider",
          .obj [("context_length", .null), ("max_completion_tokens", .null),
                ("is_moderated", .bool false)]),
        ("per_request_limits", .null),
        ("supported_parameters", .arr [])]

/-- Top-level models document holding the single minimal model. -/
def modelsJson0 : Json := .obj [("data", .arr [modelJson0])]

/-- JSON value of a model whose pricing also carries request and image
strings, hence valid for both schema files. -/
def modelJsonFull : Json :=
  .obj [("id", .str "m"), ("name", .str "M"), ("description", .str "d"),
        ("context_length", .num (Frac.ofInt 8)), ("created", .num (Frac.ofInt 1)),
        ("hugging_face_id", .null), ("canonical_slug", .str "m"),
        ("architecture",
          .obj [("modality", .str "text"), ("input_modalities", .arr []),
                ("output_modalities", .arr []), ("tokenizer", .str "t"),
                ("instruct_type", .null)]),
        ("pricing", .obj [("prompt", .str "0"), ("completion", .str "0"),
                          ("request", .str "0"), ("image", .str "0")]),
        ("top_provider",
          .obj [("context_length", .null), ("max_completion_tokens", .null),
                ("is_moderated", .bool false)]),
        ("per_request_limits", .null),
        ("supported_parameters", .arr [])]

/-- Top-level models document holding the single full model. -/
def modelsJsonFull : Json := .obj [("data", .arr [modelJsonFull])]

example : OpenRouterModelsSchema modelsJson0 = some [baseModel] := by rfl
example : Schemas.openRouterModelsValid modelsJson0 = false := by rfl
example : Schemas.openRouterModelsValid modelsJsonFull = true := by rfl

/-- Claim C2 (corrected).  getHumanReadableAge renders "Unknown" for a zero
created timestamp and otherwise buckets the elapsed time with pluralization
when the floored count exceeds 1; however the year and month thresholds are
STRICT: strictly more than 365 days renders in years and strictly more than
30 days in months, while at least 1 day renders in days and at least 1 hour
in hours, minutes otherwise.  A record created exactly 365.0 days ago
therefore renders as "~12 mns" (not "~1 yr"), and 29.9 days ago renders as
"29 days". -/
theorem c2_age_bucketing :
    (∀ nowMs : ℤ, getHumanReadableAge 0 nowMs = "Unknown") ∧
    getHumanReadableAge 1 (1000 + 365 * 86400000) = "~12 mns" ∧
    getHumanReadableAge 1 (1000 + 2583360 * 1000) = "29 days" ∧
    ∀ (created nowMs : ℤ), created ≠ 0 →
      (((Frac.ofInt 365).ltB (deltaDaysOf created nowMs) = true →
          getHumanReadableAge created nowMs =
            "~" ++ toString ((deltaDaysOf created nowMs).divPos 365 (by decide)).floor
              ++ " yr" ++
              (if ((deltaDaysOf created nowMs).divPos 365 (by decide)).floor > 1
                then "s" else "")) ∧
       ((Frac.ofInt 365).ltB (deltaDaysOf created nowMs) = false →
        (Frac.ofInt 30).ltB (deltaDaysOf created nowMs) = true →
          getHumanReadableAge created nowMs =
            "~" ++ toString ((deltaDaysOf created nowMs).divPos 30 (by decide)).floor
              ++ " mn" ++
              (if ((deltaDaysOf created nowMs).divPos 30 (by decide)).floor > 1
                then "s" else "")) ∧
       ((Frac.ofInt 30).ltB (deltaDaysOf created nowMs) = false →
        (Frac.ofInt 1).leB (deltaDaysOf created nowMs) = true →
          getHumanReadableAge created nowMs =
            toString (deltaDaysOf created nowMs).floor ++ " day" ++
              (if (deltaDaysOf created nowMs).floor > 1 then "s" else "")) ∧
       ((Frac.ofInt 1).leB (deltaDaysOf created nowMs) = false →
        (Frac.ofInt 1).leB ((deltaSecondsOf created nowMs).divPos (60 * 60) (by decide)) = true →
          getHumanReadableAge created nowMs =
            toString ((deltaSecondsOf created nowMs).divPos (60 * 60) (by decide)).floor
              ++ " hr" ++
              (if ((deltaSecondsOf created nowMs).divPos (60 * 60) (by decide)).floor > 1
                then "s" else "")) ∧
       ((Frac.ofInt 1).leB ((deltaSecondsOf created nowMs).divPos (60 * 60) (by decide)) = false →
          getHumanReadableAge created nowMs =
            toString ((deltaSecondsOf created nowMs).divPos 60 (by decide)).floor
              ++ " min" ++
              (if ((deltaSecondsOf created nowMs).divPos 60 (by decide)).floor > 1
                then "s" else ""))) := by
  refine ⟨fun nowMs => by simp [getHumanReadableAge], by decide, by decide, ?_⟩
  intro created nowMs h
  refine ⟨?_, ?_, ?_, ?_, ?_⟩
  · intro hy
    simp only [getHumanReadableAge, deltaDaysOf, deltaSecondsOf, Frac.divPos, Frac.ltB,
      Frac.leB, Frac.ofInt, Frac.floor] at hy ⊢
    rw [if_neg h]
    norm_num at hy ⊢
    all_goals (intro himp; split_ifs <;> first | rfl | (exfalso; omega))
  · intro hy hm
    simp only [getHumanReadableAge, deltaDaysOf, deltaSecondsOf, Frac.divPos, Frac.ltB,
      Frac.leB, Frac.ofInt, Frac.floor] at hy hm ⊢
    rw [if_neg h]
    norm_num at hy hm ⊢
    all_goals (split_ifs <;> first | rfl | (exfalso; omega))
  · intro hm hd
    simp only [getHumanReadableAge, deltaDaysOf, deltaSecondsOf, Frac.divPos, Frac.ltB,
      Frac.leB, Frac.ofInt, Frac.floor] at hm hd ⊢
    rw [if_neg h]
    norm_num at hm hd ⊢
    all_goals (split_ifs <;> first | rfl | (exfalso; omega))
  · intro hd hh
    simp only [getHumanReadableAge, deltaDaysOf, deltaSecondsOf, Frac.divPos, Frac.ltB,
      Frac.leB, Frac.ofInt, Frac.floor] at hd hh ⊢
    rw [if_neg h]
    norm_num at hd hh ⊢
    all_goals (split_ifs <;> first | rfl | (exfalso; omega))
  · intro hh
    simp only [getHumanReadableAge, deltaDaysOf, deltaSecondsOf, Frac.divPos, Frac.ltB,
      Frac.leB, Frac.ofInt, Frac.floor] at hh ⊢
    rw [if_neg h]
    norm_num at hh ⊢
    all_goals (split_ifs <;> first | rfl | (exfalso; omega))

/-- Witness for c2_age_bucketing: a record 400 days old renders as "~1 yr"
through the years bucket. -/
theorem c2_age_bucketing_witness :
    getHumanReadableAge 1 (1000 + 400 * 86400000) = "~1 yr" := by
  have h :=
    (c2_age_bucketing.2.2.2 1 (1000 + 400 * 86400000) (by decide)).1 (by decide)
  exact h.trans (by decide)

/-- Counterexample to claim C2 as stated: a record created exactly 365.0
days ago renders as "~12 mns", not "~1 yr" (the year threshold in the code
is strict). -/
theorem c2_exact_365_cex :
    (deltaDaysOf 1 (1000 + 365 * 86400000)).eqv (Frac.ofInt 365) = true ∧
    getHumanReadableAge 1 (1000 + 365 * 86400000) ≠ "~1 yr" ∧
    getHumanReadableAge 1 (1000 + 365 * 86400000) = "~12 mns" :=
  ⟨by decide, by decide, by decide⟩

/-- Claim C4 (confirmed).  With the free filter active and no other filter
set, filterModels keeps a record exactly when its effective prompt price is
strictly equal to the JS number 0 and its id is not the sentinel
"openrouter/auto" (the sentinel's effective price is the extreme
Number.MAX_SAFE_INTEGER and never passes the zero test); on the concrete
batch with prompt prices "0", "0.000001" and "0.00001" exactly the first
record survives. -/
theorem c4_free_filter :
    (∀ (models : List Model) (args : Args) (m : Model),
      args.free = true →
      args.searchTerm = none →
      args.minPromptPrice = none → args.maxPromptPrice = none →
      args.minContext = none → args.maxContext = none →
      args.supportsReasoning = false → args.supportsTools = false →
      args.supportsStructuredOutput = false → args.supportsResponseFormat = false →
      (m ∈ filterModels models args ↔
        m ∈ models ∧
          (getEffectivePrice m.pricing.prompt m.id).strictEq JsNum.zero = true ∧
          m.id ≠ "openrouter/auto")) ∧
    filterModels [mFree, mMicro, mSmall] freeArgs = [mFree] := by
  constructor
  · intro models args m hf hs h1 h2 h3 h4 h5 h6 h7 h8
    simp only [filterModels, hf, hs, h1, h2, h3, h4, h5, h6, h7, h8, if_true,
      Bool.false_eq_true, if_false]
    rw [List.mem_filter]
    constructor
    · rintro ⟨hm, hp⟩
      refine ⟨hm, hp, ?_⟩
      intro hid
      rw [getEffectivePrice, if_pos hid] at hp
      simp [JsNum.strictEq, JsNum.zero, Frac.eqv, Frac.ofInt, maxSafeInteger] at hp
    · rintro ⟨hm, hp, _⟩
      exact ⟨hm, hp⟩
  · rfl

/-- Witness for c4_free_filter: the sentinel record never passes the free
filter, even though it would otherwise be the only candidate. -/
theorem c4_free_filter_witness : mAuto ∉ filterModels [mAuto] freeArgs := by
  intro hmem
  have h :=
    (c4_free_filter.1 [mAuto] freeArgs mAuto rfl rfl rfl rfl rfl rfl rfl rfl rfl rfl).mp hmem
  exact h.2.2 rfl

/-- Claim C8 (confirmed).  With no active filter option - no search term,
no flags, no numeric bounds - filterModels is the identity in both content
and order. -/
theorem c8_no_filters_identity :
    ∀ (models : List Model) (args : Args),
      args.searchTerm = none → args.free = false →
      args.minPromptPrice = none → args.maxPromptPrice = none →
      args.minContext = none → args.maxContext = none →
      args.supportsReasoning = false → args.supportsTools = false →
      args.supportsStructuredOutput = false → args.supportsResponseFormat = false →
      filterModels models args = models := by
  intro models args h0 h1 h2 h3 h4 h5 h6 h7 h8 h9
  simp [filterModels, h0, h1, h2, h3, h4, h5, h6, h7, h8, h9]

/-- Witness for c8_no_filters_identity at a concrete batch and the all-off
argument record. -/
theorem c8_no_filters_identity_witness :
    filterModels [mFree, mAuto] noFilterArgs = [mFree, mAuto] :=
  c8_no_filters_identity [mFree, mAuto] noFilterArgs rfl rfl rfl rfl rfl rfl rfl rfl rfl rfl

/-- Claim C9 (confirmed).  For the sentinel auto-routing id, formatPrice
returns "n/a" whatever the price string and inversion flag are, and the
table view therefore renders "n/a" (padded to the 6-character price column)
in both the prompt-price and completion-price cells. -/
theorem c9_sentinel_na :
    (∀ (priceStr : String) (invert : Bool),
      formatPrice priceStr invert (some "openrouter/auto") = "n/a") ∧
    (∀ (m : Model) (nowMs : ℤ) (longIds invert : Bool),
      m.id = "openrouter/auto" →
      (outputAsTableRow nowMs longIds invert m).get? 1 = some "   n/a" ∧
      (outputAsTableRow nowMs longIds invert m).get? 2 = some "   n/a") := by
  constructor
  · intro priceStr invert
    rfl
  · intro m nowMs longIds invert hid
    constructor <;> (simp only [outputAsTableRow]; rw [hid]; rfl)

/-- Witness for c9_sentinel_na at the concrete sentinel record with
negative price strings and the invert-price flag on. -/
theorem c9_sentinel_na_witness :
    formatPrice "123" true (some "openrouter/auto") = "n/a" ∧
    (outputAsTableRow 0 false true mAuto).get? 1 = some "   n/a" ∧
    (outputAsTableRow 0 false true mAuto).get? 2 = some "   n/a" :=
  ⟨c9_sentinel_na.1 "123" true,
   (c9_sentinel_na.2 mAuto 0 false true rfl).1,
   (c9_sentinel_na.2 mAuto 0 false true rfl).2⟩

/-- A field accepted as a required string is accepted as an optional
string. -/
theorem optStr_of_reqStr {fs : List (String × Json)} {k : String}
    (h : (reqStr fs k).isSome = true) : (optStr fs k).isSome = true := by
  cases hj : jGet fs k with
  | none => simp [reqStr, hj] at h
  | some j => cases j <;> simp_all [reqStr, optStr, hj]

/-- Values valid for the standalone ArchitectureSchema decode under the
inline one. -/
theorem architecture_incl {j : Json} (h : Schemas.architectureValid j = true) :
    (ArchitectureSchema j).isSome = true := by
  cases j with
  | obj fs =>
      simp only [Schemas.architectureValid, Bool.and_eq_true] at h
      obtain ⟨⟨⟨⟨h1, h2⟩, h3⟩, h4⟩, h5⟩ := h
      rw [Option.isSome_iff_exists] at h1 h2 h3 h4 h5
      obtain ⟨v1, e1⟩ := h1
      obtain ⟨v2, e2⟩ := h2
      obtain ⟨v3, e3⟩ := h3
      obtain ⟨v4, e4⟩ := h4
      obtain ⟨v5, e5⟩ := h5
      simp [ArchitectureSchema, e1, e2, e3, e4, e5]
  | null => simp [Schemas.architectureValid] at h
  | bool b => simp [Schemas.architectureValid] at h
  | num f => simp [Schemas.architectureValid] at h
  | str s => simp [Schemas.architectureValid] at h
  | arr xs => simp [Schemas.architectureValid] at h

/-- Values valid for the standalone PricingSchema (request and image
required) decode under the inline one (request and image optional). -/
theorem pricing_incl {j : Json} (h : Schemas.pricingValid j = true) :
    (PricingSchema j).isSome = true := by
  cases j with
  | obj fs =>
      simp only [Schemas.pricingValid, Bool.and_eq_true] at h
      obtain ⟨⟨⟨⟨⟨⟨⟨h1, h2⟩, h3⟩, h4⟩, h5⟩, h6⟩, h7⟩, h8⟩ := h
      replace h3 := optStr_of_reqStr h3
      replace h4 := optStr_of_reqStr h4
      rw [Option.isSome_iff_exists] at h1 h2 h3 h4 h5 h6 h7 h8
      obtain ⟨v1, e1⟩ := h1
      obtain ⟨v2, e2⟩ := h2
      obtain ⟨v3, e3⟩ := h3
      obtain ⟨v4, e4⟩ := h4
      obtain ⟨v5, e5⟩ := h5
      obtain ⟨v6, e6⟩ := h6
      obtain ⟨v7, e7⟩ := h7
      obtain ⟨v8, e8⟩ := h8
      simp [PricingSchema, e1, e2, e3, e4, e5, e6, e7, e8]
  | null => simp [Schemas.pricingValid] at h
  | bool b => simp [Schemas.pricingValid] at h
  | num f => simp [Schemas.pricingValid] at h
  | str s => simp [Schemas.pricingValid] at h
  | arr xs => simp [Schemas.pricingValid] at h

/-- Values valid for the standalone TopProviderSchema decode under the
inline one. -/
theorem topProvider_incl {j : Json} (h : Schemas.topProviderValid j = true) :
    (TopProviderSchema j).isSome = true := by
  cases j with
  | obj fs =>
      simp only [Schemas.topProviderValid, Bool.and_eq_true] at h
      obtain ⟨⟨h1, h2⟩, h3⟩ := h
      rw [Option.isSome_iff_exists] at h1 h2 h3
      obtain ⟨v1, e1⟩ := h1
      obtain ⟨v2, e2⟩ := h2
      obtain ⟨v3, e3⟩ := h3
      simp [TopProviderSchema, e1, e2, e3]
  | null => simp [Schemas.topProviderValid] at h
  | bool b => simp [Schemas.topProviderValid] at h
  | num f => simp [Schemas.topProviderValid] at h
  | str s => simp [Schemas.topProviderValid] at h
  | arr xs => simp [Schemas.topProviderValid] at h

/-- Values valid for the standalone ModelSchema decode under the inline
one. -/
theorem model_incl {j : Json} (h : Schemas.modelValid j = true) :
    (ModelSchema j).isSome = true := by
  cases j with
  | obj fs =>
      simp only [Schemas.modelValid, Bool.and_eq_true] at h
      obtain ⟨⟨⟨⟨⟨⟨⟨⟨⟨⟨⟨h1, h2⟩, h3⟩, h4⟩, h5⟩, h6⟩, h7⟩, ha⟩, hp⟩, ht⟩, h11⟩, h12⟩ := h
      rw [Option.isSome_iff_exists] at h1 h2 h3 h4 h5 h6 h7 h11 h12
      obtain ⟨v1, e1⟩ := h1
      obtain ⟨v2, e2⟩ := h2
      obtain ⟨v3, e3⟩ := h3
      obtain ⟨v4, e4⟩ := h4
      obtain ⟨v5, e5⟩ := h5
      obtain ⟨v6, e6⟩ := h6
      obtain ⟨v7, e7⟩ := h7
      obtain ⟨v11, e11⟩ := h11
      obtain ⟨v12, e12⟩ := h12
      cases hja : jGet fs "architecture" with
      | none => rw [hja] at ha; simp at ha
      | some ja =>
          rw [hja] at ha
          cases hjp : jGet fs "pricing" with
          | none => rw [hjp] at hp; simp at hp
          | some jp =>
              rw [hjp] at hp
              cases hjt : jGet fs "top_provider" with
              | none => rw [hjt] at ht; simp at ht
              | some jt =>
                  rw [hjt] at ht
                  have ha' := architecture_incl ha
                  have hp' := pricing_incl hp
                  have ht' := topProvider_incl ht
                  rw [Option.isSome_iff_exists] at ha' hp' ht'
                  obtain ⟨va, ea⟩ := ha'
                  obtain ⟨vp, ep⟩ := hp'
                  obtain ⟨vt, et⟩ := ht'
                  simp [ModelSchema, e1, e2, e3, e4, e5, e6, e7, e11, e12,
                    hja, hjp, hjt, ea, ep, et]
  | null => simp [Schemas.modelValid] at h
  | bool b => simp [Schemas.modelValid] at h
  | num f => simp [Schemas.modelValid] at h
  | str s => simp [Schemas.modelValid] at h
  | arr xs => simp [Schemas.modelValid] at h

/-- Element-wise standalone validity makes the inline array decode
succeed. -/
theorem mapM_modelSchema_isSome {xs : List Json}
    (h : ∀ x ∈ xs, Schemas.modelValid x = true) :
    (xs.mapM ModelSchema).isSome = true := by
  induction xs with
  | nil => rfl
  | cons x rest ih =>
      have hx := model_incl (h x (List.mem_cons_self x rest))
      rw [Option.isSome_iff_exists] at hx
      obtain ⟨v, ev⟩ := hx
      have hrest := ih (fun y hy => h y (List.mem_cons_of_mem x hy))
      rw [Option.isSome_iff_exists] at hrest
      obtain ⟨vs, evs⟩ := hrest
      rw [List.mapM_cons, ev, evs]
      rfl

/-- Claim C10 (corrected).  The standalone schema module of src/schemas.ts
and the inline schemas of src/or-models.ts do NOT define the same
validator: every JSON document accepted by the standalone
OpenRouterModelsSchema is accepted by the inline one, but the inclusion is
strict, because the standalone PricingSchema requires the request and image
fields while the inline PricingSchema makes them optional. -/
theorem c10_schema_refinement :
    ∀ j : Json, Schemas.openRouterModelsValid j = true →
      (OpenRouterModelsSchema j).isSome = true := by
  intro j h
  cases j with
  | obj fs =>
      simp only [Schemas.openRouterModelsValid] at h
      cases hd : jGet fs "data" with
      | none => rw [hd] at h; simp at h
      | some jd =>
          rw [hd] at h
          cases jd with
          | arr xs =>
              simp only [List.all_eq_true] at h
              simp only [OpenRouterModelsSchema, hd]
              exact mapM_modelSchema_isSome h
          | null => simp at h
          | bool b => simp at h
          | num f => simp at h
          | str s => simp at h
          | obj gs => simp at h
  | null => simp [Schemas.openRouterModelsValid] at h
  | bool b => simp [Schemas.openRouterModelsValid] at h
  | num f => simp [Schemas.openRouterModelsValid] at h
  | str s => simp [Schemas.openRouterModelsValid] at h
  | arr xs => simp [Schemas.openRouterModelsValid] at h

/-- Witness for c10_schema_refinement: a concrete document with full
pricing passes the standalone validator, and the theorem then makes the
inline parse succeed. -/
theorem c10_schema_refinement_witness :
    Schemas.openRouterModelsValid modelsJsonFull = true ∧
    (OpenRouterModelsSchema modelsJsonFull).isSome = true :=
  ⟨rfl, c10_schema_refinement modelsJsonFull rfl⟩

/-- Counterexample to claim C10 as stated: a concrete document whose
pricing object lacks the request and image fields passes the inline
schemas of src/or-models.ts but fails the standalone OpenRouterModelsSchema
of src/schemas.ts, so the two validators are not equivalent. -/
theorem c10_schemas_not_equivalent_cex :
    (OpenRouterModelsSchema modelsJson0).isSome = true ∧
    Schemas.openRouterModelsValid modelsJson0 = false :=
  ⟨rfl, rfl⟩

/-- The network fetch yields a validated batch: the response arrives, has a
2xx status, its body decodes, and the body passes the inline schema.  (This
is the spec's notion of network-fetch success; it does not include the
cache write.) -/
def netFetchYields (env : FetchEnv) : Bool :=
  match env.fetchResult with
  | .ok (status, some j) =>
      if 200 ≤ status ∧ status ≤ 299 then (OpenRouterModelsSchema j).isSome else false
  | _ => false

/-- The stale-cache fallback yields a validated batch. -/
def staleYields (env : FetchEnv) : Bool :=
  match env.cacheRead2 with
  | .ok (some j) => (OpenRouterModelsSchema j).isSome
  | _ => false

/-- The stale fallback either terminates the process with exit code 1 or
returns a batch, and it exits exactly when it cannot yield a batch. -/
theorem staleFallback_exit_iff (env : FetchEnv) :
    (staleFallback env = .exit 1 ↔ staleYields env = false) ∧
    (staleFallback env = .exit 1 ∨ ∃ b, staleFallback env = .ret b) := by
  unfold staleFallback staleYields
  cases hr : env.cacheRead2 with
  | error e => simp
  | ok o =>
      cases o with
      | none => simp
      | some j =>
          cases hv : OpenRouterModelsSchema j with
          | none => simp [hv]
          | some b => simp [hv]

/-- The network path terminates with exit code 1 exactly when the network
branch fails to complete (fetch, decode, validation, or the cache write)
AND the stale fallback cannot yield a batch; otherwise it returns a
batch. -/
theorem networkPath_exit_iff (env : FetchEnv) :
    (networkPath env = .exit 1 ↔
      (netFetchYields env = false ∨ env.writeResult.isOk = false) ∧
        staleYields env = false) ∧
    (networkPath env = .exit 1 ∨ ∃ b, networkPath env = .ret b) := by
  obtain ⟨hs1, hs2⟩ := staleFallback_exit_iff env
  unfold networkPath netFetchYields
  cases hf : env.fetchResult with
  | error e => exact ⟨by simp [hs1], by simpa using hs2⟩
  | ok p =>
      obtain ⟨status, body⟩ := p
      by_cases hok : 200 ≤ status ∧ status ≤ 299
      · cases body with
        | none => exact ⟨by simp [hok, hs1], by simpa [hok] using hs2⟩
        | some j =>
            cases hv : OpenRouterModelsSchema j with
            | none => exact ⟨by simp [hok, hv, hs1], by simpa [hok, hv] using hs2⟩
            | some batch =>
                cases hw : env.writeResult with
                | ok u => exact ⟨by simp [hok, hv, hw, hs1, Except.isOk, Except.toBool], by simp [hok, hv, hw]⟩
                | error e =>
                    exact ⟨by simp [hok, hv, hw, hs1, Except.isOk, Except.toBool], by simpa [hok, hv, hw] using hs2⟩
      · cases body with
        | none => exact ⟨by simp [hok, hs1], by simpa [hok] using hs2⟩
        | some j => exact ⟨by simp [hok, hs1], by simpa [hok] using hs2⟩

/-- Environment in which the cache is absent, the network responds 200 with
a schema-valid body, and the cache write fails. -/
def cexEnv : FetchEnv :=
  ⟨0, .error .notFound, .error .notFound, .ok (200, some modelsJson0),
   .error .other, .error .notFound⟩

/-- Claim C1 (corrected).  On the network path with a 2xx response and a
schema-valid body, fetchModels returns the validated batch when the cache
write succeeds; but a cache-write failure is caught by the same handler as
fetch and validation errors, so the function then continues with the
stale-cache fallback instead of returning the fetched batch - the write
failure is logged AND changes the control flow (possibly the result, or
even terminating the process). -/
theorem c1_network_success_write :
    ∀ (fr : Bool) (env : FetchEnv) (status : ℤ) (j : Json) (batch : List Model),
      cacheFresh fr env = none →
      env.fetchResult = .ok (status, some j) →
      200 ≤ status → status ≤ 299 →
      OpenRouterModelsSchema j = some batch →
      ((env.writeResult = .ok () → fetchModels fr env = ⟨.ret batch, true⟩) ∧
       (∀ e, env.writeResult = .error e →
          fetchModels fr env = ⟨staleFallback env, true⟩)) := by
  intro fr env status j batch hcf hf h200 h299 hv
  constructor
  · intro hw
    simp [fetchModels, hcf, networkPath, hf, hv, hw, h200, h299]
  · intro e hw
    simp [fetchModels, hcf, networkPath, hf, hv, hw, h200, h299]

/-- Witness for c1_network_success_write: with a successful write the
fetched batch is returned; with the failing write of cexEnv the stale
fallback runs instead. -/
theorem c1_network_success_write_witness :
    fetchModels true { cexEnv with writeResult := .ok () } =
      ⟨.ret [baseModel], true⟩ ∧
    fetchModels true cexEnv = ⟨staleFallback cexEnv, true⟩ :=
  ⟨(c1_network_success_write true { cexEnv with writeResult := .ok () } 200 modelsJson0
      [baseModel] rfl rfl (by decide) (by decide) rfl).1 rfl,
   (c1_network_success_write true cexEnv 200 modelsJson0
      [baseModel] rfl rfl (by decide) (by decide) rfl).2 .other rfl⟩

/-- Counterexample to claim C1 as stated: in cexEnv the HTTP GET succeeds
with status 200 and the body validates to a batch, yet because the cache
write fails and the stale cache is unreadable, fetchModels terminates the
process with exit code 1 instead of returning the batch. -/
theorem c1_write_failure_aborts_cex :
    cexEnv.fetchResult = .ok (200, some modelsJson0) ∧
    OpenRouterModelsSchema modelsJson0 = some [baseModel] ∧
    (fetchModels true cexEnv).result = .exit 1 ∧
    (fetchModels true cexEnv).result ≠ .ret [baseModel] := by
  refine ⟨rfl, rfl, rfl, fun h => ?_⟩
  rw [show (fetchModels true cexEnv).result = .exit 1 from rfl] at h
  exact FetchResult.noConfusion h

/-- Claim C3 (confirmed).  Without a forced refresh, when stat succeeds and
the cache is younger than 24 hours, a cache that reads, parses and
validates is returned with no network request; a read error, a parse error
or a validation failure on this path is non-fatal and control falls
through to the network path (which performs the fetch). -/
theorem c3_cache_fresh_path :
    ∀ (env : FetchEnv) (mtime : ℤ) (j : Json) (batch : List Model),
      env.statResult = .ok mtime →
      Frac.ltB ⟨env.nowMs - mtime, 1000 * 60 * 60, by decide⟩ (Frac.ofInt 24) = true →
      ((env.cacheRead1 = .ok (some j) → OpenRouterModelsSchema j = some batch →
          fetchModels false env = ⟨.ret batch, false⟩) ∧
       (∀ e, env.cacheRead1 = .error e →
          fetchModels false env = ⟨networkPath env, true⟩) ∧
       (env.cacheRead1 = .ok none →
          fetchModels false env = ⟨networkPath env, true⟩) ∧
       (env.cacheRead1 = .ok (some j) → OpenRouterModelsSchema j = none →
          fetchModels false env = ⟨networkPath env, true⟩)) := by
  intro env mtime j batch hst hage
  refine ⟨?_, ?_, ?_, ?_⟩
  · intro hr hv
    simp [fetchModels, cacheFresh, hst, hage, hr, hv]
  · intro e hr
    simp [fetchModels, cacheFresh, hst, hage, hr]
  · intro hr
    simp [fetchModels, cacheFresh, hst, hage, hr]
  · intro hr hv
    simp [fetchModels, cacheFresh, hst, hage, hr, hv]

/-- Environment with a fresh, readable and valid cache. -/
def freshEnv : FetchEnv :=
  ⟨1000000, .ok 999000, .ok (some modelsJson0), .error (), .ok (), .error .notFound⟩

/-- Witness for c3_cache_fresh_path: the fresh cache of freshEnv is
returned without any network request. -/
theorem c3_cache_fresh_path_witness :
    fetchModels false freshEnv = ⟨.ret [baseModel], false⟩ :=
  (c3_cache_fresh_path freshEnv 999000 modelsJson0 [baseModel] rfl (by decide)).1 rfl rfl

/-- Claim C5 (corrected).  The process exits 0 on normal completion, and
help and version print and return without fetching.  But the non-zero exit
is NOT characterized by "both the network fetch and the stale fallback
fail to yield a valid batch": the exit status is non-zero exactly when the
cache-fresh path does not return, the network BRANCH fails to complete -
where a failing cache WRITE counts just like a fetch or validation failure
- and the stale fallback fails.  In particular a run can exit non-zero
even though the network fetch itself yielded a validated batch. -/
theorem c5_exit_codes :
    ∀ (args : Args) (env : FetchEnv),
      (args.help = true → mainRun args env = (0, false)) ∧
      (args.help = false → args.version = true → mainRun args env = (0, false)) ∧
      (args.help = false → args.version = false →
        ((mainRun args env).1 ≠ 0 ↔
          cacheFresh args.forceRefresh env = none ∧
          (netFetchYields env = false ∨ env.writeResult.isOk = false) ∧
          staleYields env = false)) := by
  intro args env
  refine ⟨fun hh => by simp [mainRun, hh], fun hh hv => by simp [mainRun, hh, hv], ?_⟩
  intro hh hv
  obtain ⟨hn1, hn2⟩ := networkPath_exit_iff env
  cases hcf : cacheFresh args.forceRefresh env with
  | some b => simp [mainRun, hh, hv, fetchModels, hcf]
  | none =>
      cases hn2 with
      | inl hexit =>
          have hx := hn1.mp hexit
          simpa [mainRun, hh, hv, fetchModels, hcf, hexit] using hx
      | inr hret =>
          obtain ⟨b, hret⟩ := hret
          simp only [mainRun, hh, hv, fetchModels, hcf, hret, Bool.false_eq_true,
            if_false]
          constructor
          · intro hne
            exact absurd rfl hne
          · rintro ⟨-, hrhs⟩
            have hx := hn1.mpr hrhs
            rw [hret] at hx
            exact FetchResult.noConfusion hx

/-- Witness for c5_exit_codes: help short-circuits with exit 0 and no
fetch, and in cexEnv (network branch broken only by the failing cache
write, stale cache unreadable) the run exits 1. -/
theorem c5_exit_codes_witness :
    mainRun { noFilterArgs with help := true } cexEnv = (0, false) ∧
    (mainRun noFilterArgs cexEnv).1 ≠ 0 :=
  ⟨(c5_exit_codes { noFilterArgs with help := true } cexEnv).1 rfl,
   ((c5_exit_codes noFilterArgs cexEnv).2.2 rfl rfl).mpr
     ⟨rfl, Or.inr rfl, rfl⟩⟩

/-- Counterexample to claim C5 as stated: in cexEnv the network fetch
yields a validated batch (status 200, body valid), yet the process exits
with status 1 because the cache write and the stale fallback fail - so
"non-zero exactly when both the network fetch and the stale-cache fallback
fail" is wrong. -/
theorem c5_exit_despite_fetch_success_cex :
    netFetchYields cexEnv = true ∧ mainRun noFilterArgs cexEnv = (1, true) :=
  ⟨rfl, rfl⟩

/-- Fraction strict-less-than is asymmetric. -/
theorem Frac.ltB_asymm (a b : Frac) (h1 : a.ltB b = true) (h2 : b.ltB a = true) : False := by
  simp only [Frac.ltB, decide_eq_true_eq] at h1 h2
  omega

/-- Fraction not-less-than (the comparator's "sorts no later") is
transitive; denominators are positive so cross multiplication preserves
order. -/
theorem Frac.notLtB_trans {a b c : Frac} (h1 : b.ltB a = false) (h2 : c.ltB b = false) :
    c.ltB a = false := by
  simp only [Frac.ltB, decide_eq_false_iff_not, not_lt] at h1 h2 ⊢
  have had : (0 : ℤ) < a.d := by exact_mod_cast a.pos
  have hbd : (0 : ℤ) < b.d := by exact_mod_cast b.pos
  have hcd : (0 : ℤ) < c.d := by exact_mod_cast c.pos
  have h3 : a.n * (b.d : ℤ) * (c.d : ℤ) ≤ b.n * (a.d : ℤ) * (c.d : ℤ) :=
    mul_le_mul_of_nonneg_right h1 hcd.le
  have h4 : b.n * (c.d : ℤ) * (a.d : ℤ) ≤ c.n * (b.d : ℤ) * (a.d : ℤ) :=
    mul_le_mul_of_nonneg_right h2 had.le
  have h5 : a.n * (c.d : ℤ) * (b.d : ℤ) ≤ c.n * (a.d : ℤ) * (b.d : ℤ) := by nlinarith
  exact le_of_mul_le_mul_right h5 hbd

/-- Code-unit list comparison is asymmetric. -/
theorem charListLt_asymm : ∀ (a b : List Char),
    charListLt a b = true → charListLt b a = true → False
  | [], [], h1, _ => by simp [charListLt] at h1
  | [], _ :: _, _, h2 => by simp [charListLt] at h2
  | _ :: _, [], h1, _ => by simp [charListLt] at h1
  | a :: as, b :: bs, h1, h2 => by
      simp only [charListLt] at h1 h2
      by_cases hab : a < b
      · rw [if_neg (lt_asymm hab), if_pos hab] at h2
        exact Bool.noConfusion h2
      · rw [if_neg hab] at h1
        by_cases hba : b < a
        · rw [if_pos hba] at h1
          exact Bool.noConfusion h1
        · rw [if_neg hba] at h1
          rw [if_neg hba, if_neg hab] at h2
          exact charListLt_asymm as bs h1 h2

/-- Code-unit list comparison is transitive. -/
theorem charListLt_trans : ∀ (a b c : List Char),
    charListLt a b = true → charListLt b c = true → charListLt a c = true
  | [], [], [], h1, _ => by simp [charListLt] at h1
  | [], _ :: _, [], _, h2 => by simp [charListLt] at h2
  | [], _, _ :: _, _, _ => by simp [charListLt]
  | _ :: _, [], _, h1, _ => by simp [charListLt] at h1
  | _ :: _, _ :: _, [], _, h2 => by simp [charListLt] at h2
  | a :: as, b :: bs, c :: cs, h1, h2 => by
      simp only [charListLt] at h1 h2 ⊢
      by_cases hab : a < b
      · by_cases hbc : b < c
        · rw [if_pos (lt_trans hab hbc)]
        · rw [if_neg hbc] at h2
          by_cases hcb : c < b
          · rw [if_pos hcb] at h2
            exact Bool.noConfusion h2
          · have : b = c := le_antisymm (le_of_not_lt hcb) (le_of_not_lt hbc)
            subst this
            rw [if_pos hab]
      · rw [if_neg hab] at h1
        by_cases hba : b < a
        · rw [if_pos hba] at h1
          exact Bool.noConfusion h1
        · have hEq : a = b := le_antisymm (le_of_not_lt hba) (le_of_not_lt hab)
          subst hEq
          rw [if_neg hab] at h1
          by_cases hac : a < c
          · rw [if_pos hac]
          · rw [if_neg hac] at h2 ⊢
            by_cases hca : c < a
            · rw [if_pos hca] at h2
              exact Bool.noConfusion h2
            · rw [if_neg hca] at h2 ⊢
              exact charListLt_trans as bs cs h1 h2

/-- Two code-unit lists neither of which is below the other are equal. -/
theorem charListLt_eq_of_not : ∀ (a b : List Char),
    charListLt a b = false → charListLt b a = false → a = b
  | [], [], _, _ => rfl
  | [], _ :: _, h1, _ => by simp [charListLt] at h1
  | _ :: _, [], _, h2 => by simp [charListLt] at h2
  | a :: as, b :: bs, h1, h2 => by
      simp only [charListLt] at h1 h2
      by_cases hab : a < b
      · rw [if_pos hab] at h1
        exact Bool.noConfusion h1
      · by_cases hba : b < a
        · rw [if_pos hba] at h2
          exact Bool.noConfusion h2
        · have hEq : a = b := le_antisymm (le_of_not_lt hba) (le_of_not_lt hab)
          rw [if_neg hab, if_neg hba] at h1
          rw [if_neg hba, if_neg hab] at h2
          rw [hEq, charListLt_eq_of_not as bs h1 h2]

/-- JS numeric strict-less-than is asymmetric. -/
theorem jsNumLt_asymm (x y : JsNum) (h1 : JsNum.lt x y = true) (h2 : JsNum.lt y x = true) :
    False := by
  cases x <;> cases y <;> simp only [JsNum.lt] at h1 h2 <;>
    first
      | exact Bool.noConfusion h1
      | exact Bool.noConfusion h2
      | exact Frac.ltB_asymm _ _ h1 h2

/-- Among non-NaN JS numbers, "sorts no later" (not strictly greater) is
transitive. -/
theorem jsNumNotLt_trans (x y z : JsNum)
    (hx : x.isNaN = false) (hy : y.isNaN = false) (hz : z.isNaN = false)
    (h1 : JsNum.lt y x = false) (h2 : JsNum.lt z y = false) :
    JsNum.lt z x = false := by
  cases x <;> cases y <;> cases z <;>
    simp only [JsNum.isNaN] at hx hy hz <;>
    first
      | exact Bool.noConfusion hx
      | exact Bool.noConfusion hy
      | exact Bool.noConfusion hz
      | (simp only [JsNum.lt] at h1 h2 ⊢ <;>
          first
            | rfl
            | exact Bool.noConfusion h1
            | exact Bool.noConfusion h2
            | exact Frac.notLtB_trans h1 h2)

/-- Sort-key strict-less-than is asymmetric. -/
theorem skeyLt_asymm (x y : SKey) (h1 : SKey.jsLt x y = true) (h2 : SKey.jsLt y x = true) :
    False := by
  cases x <;> cases y <;> simp only [SKey.jsLt] at h1 h2 <;>
    first
      | exact Bool.noConfusion h1
      | exact jsNumLt_asymm _ _ h1 h2
      | exact charListLt_asymm _ _ h1 h2

/-- A sort key is comparable when it is not the NaN number (string keys
always are). -/
def SKey.comparable : SKey → Bool
  | .n x => !x.isNaN
  | .s _ => true

/-- A key extractor is uniform when it always produces the same key
variant; every extractor in the keyMap is. -/
def KeyUniform (keyf : Model → SKey) : Prop :=
  (∀ m, ∃ x, keyf m = SKey.n x) ∨ (∀ m, ∃ s, keyf m = SKey.s s)

/-- Every key extractor produced by sortKeyOf is uniform. -/
theorem keyUniform_of_sortKeyOf {sortBy : String} {keyf : Model → SKey}
    (hk : sortKeyOf sortBy = some keyf) : KeyUniform keyf := by
  unfold sortKeyOf at hk
  split_ifs at hk <;> first
    | exact Option.noConfusion hk
    | (cases Option.some.inj hk
       first
         | exact Or.inl fun m => ⟨_, rfl⟩
         | exact Or.inr fun m => ⟨_, rfl⟩)

/-- The comparator relation: a non-positive comparator result is exactly
"the later key is not strictly below the earlier one", in the direction
selected by the descending flag. -/
theorem modelLe_iff (keyf : Model → SKey) (desc : Bool) (a b : Model) :
    modelLe keyf desc a b ↔
      (if desc then (keyf a).jsLt (keyf b) else (keyf b).jsLt (keyf a)) = false := by
  unfold modelLe modelCmp
  cases desc
  · simp only [Bool.false_eq_true, if_false]
    by_cases h1 : (keyf a).jsLt (keyf b) = true
    · have h2 : (keyf b).jsLt (keyf a) = false := by
        cases h2 : (keyf b).jsLt (keyf a)
        · rfl
        · exact (skeyLt_asymm _ _ h1 h2).elim
      simp [h1, h2]
    · rw [Bool.not_eq_true] at h1
      rw [h1]
      by_cases h2 : (keyf b).jsLt (keyf a) = true <;> simp [h1, h2]
  · simp only [if_true]
    by_cases h1 : (keyf a).jsLt (keyf b) = true
    · simp [h1]
    · rw [Bool.not_eq_true] at h1
      rw [h1]
      by_cases h2 : (keyf b).jsLt (keyf a) = true <;> simp [h1, h2]

/-- The comparator relation is total. -/
theorem modelLe_total (keyf : Model → SKey) (desc : Bool) (a b : Model) :
    modelLe keyf desc a b ∨ modelLe keyf desc b a := by
  rw [modelLe_iff, modelLe_iff]
  cases desc <;> simp only [Bool.false_eq_true, if_false, if_true]
  · by_cases h : (keyf b).jsLt (keyf a) = true
    · refine Or.inr ?_
      cases h2 : (keyf a).jsLt (keyf b)
      · rfl
      · exact (skeyLt_asymm _ _ h h2).elim
    · exact Or.inl (Bool.not_eq_true _ |>.mp h)
  · by_cases h : (keyf a).jsLt (keyf b) = true
    · refine Or.inr ?_
      cases h2 : (keyf b).jsLt (keyf a)
      · rfl
      · exact (skeyLt_asymm _ _ h h2).elim
    · exact Or.inl (Bool.not_eq_true _ |>.mp h)

/-- Among code-unit lists, "not strictly above" is transitive. -/
theorem charListNotLt_trans {a b c : List Char}
    (h1 : charListLt b a = false) (h2 : charListLt c b = false) :
    charListLt c a = false := by
  cases h : charListLt c a
  · rfl
  · exfalso
    by_cases hcb : charListLt c b = true
    · exact Bool.noConfusion (h2 ▸ hcb)
    · by_cases hbc : charListLt b c = true
      · have := charListLt_trans b c a hbc h
        exact Bool.noConfusion (h1 ▸ this)
      · have hEq : b = c :=
          charListLt_eq_of_not b c (Bool.not_eq_true _ |>.mp hbc) (Bool.not_eq_true _ |>.mp hcb)
        subst hEq
        exact Bool.noConfusion (h1 ▸ h)

/-- For a uniform key extractor the comparator relation is transitive on
records whose keys are comparable. -/
theorem modelLe_trans_of {keyf : Model → SKey} {desc : Bool} (hu : KeyUniform keyf)
    {a b c : Model}
    (ha : (keyf a).comparable = true) (hb : (keyf b).comparable = true)
    (hc : (keyf c).comparable = true)
    (h1 : modelLe keyf desc a b) (h2 : modelLe keyf desc b c) :
    modelLe keyf desc a c := by
  rw [modelLe_iff] at h1 h2 ⊢
  cases desc <;> simp only [Bool.false_eq_true, if_false, if_true] at h1 h2 ⊢
  · cases hu with
    | inl hn =>
        obtain ⟨p, hp⟩ := hn a
        obtain ⟨q, hq⟩ := hn b
        obtain ⟨r, hr⟩ := hn c
        rw [hp, hq] at h1
        rw [hq, hr] at h2
        rw [hp, hr]
        rw [hp] at ha
        rw [hq] at hb
        rw [hr] at hc
        simp only [SKey.comparable, Bool.not_eq_true'] at ha hb hc
        exact jsNumNotLt_trans p q r ha hb hc h1 h2
    | inr hs =>
        obtain ⟨p, hp⟩ := hs a
        obtain ⟨q, hq⟩ := hs b
        obtain ⟨r, hr⟩ := hs c
        rw [hp, hq] at h1
        rw [hq, hr] at h2
        rw [hp, hr]
        exact charListNotLt_trans h1 h2
  · cases hu with
    | inl hn =>
        obtain ⟨p, hp⟩ := hn a
        obtain ⟨q, hq⟩ := hn b
        obtain ⟨r, hr⟩ := hn c
        rw [hp, hq] at h1
        rw [hq, hr] at h2
        rw [hp, hr]
        rw [hp] at ha
        rw [hq] at hb
        rw [hr] at hc
        simp only [SKey.comparable, Bool.not_eq_true'] at ha hb hc
        exact jsNumNotLt_trans r q p hc hb ha h2 h1
    | inr hs =>
        obtain ⟨p, hp⟩ := hs a
        obtain ⟨q, hq⟩ := hs b
        obtain ⟨r, hr⟩ := hs c
        rw [hp, hq] at h1
        rw [hq, hr] at h2
        rw [hp, hr]
        exact charListNotLt_trans h2 h1

/-- Sortedness of the sort engine: when every record in the input has a
comparable key, the insertion-sorted output is pairwise ordered by the
comparator relation.  Proved by transporting the sort to the subtype of
comparable-key records, where the comparator is globally total and
transitive. -/
theorem sortModels_pairwise (keyf : Model → SKey) (desc : Bool) (models : List Model)
    (hu : KeyUniform keyf)
    (H : ∀ m ∈ models, (keyf m).comparable = true) :
    List.Pairwise (modelLe keyf desc) (models.insertionSort (modelLe keyf desc)) := by
  classical
  let P : Model → Prop := fun m => (keyf m).comparable = true
  let l' := models.attachWith P H
  let r' : {m // P m} → {m // P m} → Prop := fun a b => modelLe keyf desc a.1 b.1
  haveI : DecidableRel r' := fun a b => modelLeDec keyf desc a.1 b.1
  have hmap : (l'.insertionSort r').map Subtype.val =
      models.insertionSort (modelLe keyf desc) := by
    rw [List.map_insertionSort r' (modelLe keyf desc) Subtype.val l'
      (fun a _ b _ => Iff.rfl)]
    rw [List.attachWith_map_subtype_val]
  rw [← hmap]
  haveI : IsTotal {m // P m} r' := ⟨fun a b => modelLe_total keyf desc a.1 b.1⟩
  haveI : IsTrans {m // P m} r' :=
    ⟨fun a b c => modelLe_trans_of hu a.2 b.2 c.2⟩
  have hsorted : List.Pairwise r' (l'.insertionSort r') :=
    List.sorted_insertionSort r' l'
  exact List.pairwise_map.mpr hsorted

/-- Claim C6 (confirmed).  For every record sequence and recognized sort
key, sortModels returns a permutation of its input that is (when every
record's key is well-defined, which the record invariant's numeric price
strings guarantee) pairwise ordered by the extracted key - numerically for
the price/context/created keys via JS less-than on the effective price,
and case-insensitively lexicographically for the name key - where the
descending flag only reverses the comparison; records whose keys compare
equal (comparator result 0) keep their input order in either direction,
and sorting ["Beta", "alpha", "Gamma"] by name descending yields
["Gamma", "Beta", "alpha"]. -/
theorem c6_sort_engine :
    (∀ (models : List Model) (sortBy : String) (desc : Bool) (keyf : Model → SKey),
      sortKeyOf sortBy = some keyf →
      (List.Perm (sortModels models sortBy desc) models ∧
       (∀ a b : Model, modelCmp keyf desc a b = 0 → List.Sublist [a, b] models →
          List.Sublist [a, b] (sortModels models sortBy desc)) ∧
       ((∀ m ∈ models, (keyf m).comparable = true) →
        List.Pairwise
          (fun a b =>
            (if desc then (keyf a).jsLt (keyf b) else (keyf b).jsLt (keyf a)) = false)
          (sortModels models sortBy desc)))) ∧
    sortModels [mBeta, mAlpha, mGamma] "name" true = [mGamma, mBeta, mAlpha] := by
  constructor
  · intro models sortBy desc keyf hk
    have hu := keyUniform_of_sortKeyOf hk
    have hEq : sortModels models sortBy desc =
        models.insertionSort (modelLe keyf desc) := by
      unfold sortModels
      rw [hk]
    refine ⟨?_, ?_, ?_⟩
    · rw [hEq]
      exact List.perm_insertionSort _ _
    · intro a b hcmp hsub
      rw [hEq]
      have hle : modelLe keyf desc a b := le_of_eq hcmp
      exact List.pair_sublist_insertionSort hle hsub
    · intro H
      have hp := sortModels_pairwise keyf desc models hu H
      rw [hEq]
      exact hp.imp (fun h => (modelLe_iff keyf desc _ _).mp h)
  · rfl

/-- Witness for c6_sort_engine: the name-descending scenario, with a
permutation fact obtained through the theorem and the concrete sorted
output. -/
theorem c6_sort_engine_witness :
    List.Perm (sortModels [mBeta, mAlpha, mGamma] "name" true) [mBeta, mAlpha, mGamma] ∧
    sortModels [mBeta, mAlpha, mGamma] "name" true = [mGamma, mBeta, mAlpha] :=
  ⟨(c6_sort_engine.1 [mBeta, mAlpha, mGamma] "name" true
      (fun m => SKey.s (jsToLower m.name)) rfl).1,
   c6_sort_engine.2⟩

/-- Claim C7 (confirmed).  sortModels is idempotent: re-sorting its output
with the same key and direction returns the output unchanged (for
recognized keys this holds whenever the records' keys are well-defined,
as the record invariant's numeric price strings guarantee; for an
unrecognized key sortModels is the identity and idempotence is
immediate). -/
theorem c7_sort_idempotent :
    ∀ (models : List Model) (sortBy : String) (desc : Bool),
      (∀ keyf, sortKeyOf sortBy = some keyf →
        ∀ m ∈ models, (keyf m).comparable = true) →
      sortModels (sortModels models sortBy desc) sortBy desc =
        sortModels models sortBy desc := by
  intro models sortBy desc hcomp
  cases hk : sortKeyOf sortBy with
  | none =>
      unfold sortModels
      rw [hk]
  | some keyf =>
      have hu := keyUniform_of_sortKeyOf hk
      have hEq : ∀ l : List Model, sortModels l sortBy desc =
          l.insertionSort (modelLe keyf desc) := by
        intro l
        unfold sortModels
        rw [hk]
      rw [hEq, hEq]
      exact List.Sorted.insertionSort_eq
        (sortModels_pairwise keyf desc models hu (hcomp keyf hk))

/-- Witness for c7_sort_idempotent on the name-descending scenario batch. -/
theorem c7_sort_idempotent_witness :
    sortModels (sortModels [mBeta, mAlpha, mGamma] "name" true) "name" true =
      sortModels [mBeta, mAlpha, mGamma] "name" true :=
  c7_sort_idempotent [mBeta, mAlpha, mGamma] "name" true
    (fun keyf hk m _ => by
      have he : (fun m => SKey.s (jsToLower m.name)) = keyf := Option.some.inj hk
      rw [← he]
      rfl)
